import Mathlib

/-!
Shallow embedding of the clox-style bytecode interpreter (src/): the VM
data model (value.h, stack.h, common.h, object.h), the interpreter loop
cases the claims touch (vm.cpp), the mark-sweep collector (object.cpp),
the compiler fragments the claims touch (compiler.cpp), the parser
parameter/argument loops (parser.cpp) and the exit-code logic (main.cpp).

Modelling conventions:
  - heap objects are identified by a numeric id, standing for the C++
    object pointer; pointer equality becomes id equality;
  - the operand stack `Stack<Value, STACK_MAX>` is an array plus a top
    counter; `pop_to` only moves the counter, so values beyond the top
    stay readable, exactly as in stack.h (this matters for RETURN);
  - an open upvalue's `Value* location` (a pointer into the stack array)
    becomes the stack index it points at; a closed upvalue (whose
    location points at its own `closed` field) has location `none`;
  - pointer comparisons between stack slots become index comparisons
    (the array is contiguous);
  - a null `ClosureObject*` (as produced by `methods["init"]` on an
    absl::flat_hash_map, which value-initializes the mapped pointer)
    becomes `none` in `Option Nat`;
  - IEEE-754 double payloads are abstracted to `Int`; the claims under
    test concern operand dispatch and handle identity, not rounding;
  - places where the C++ performs undefined behaviour (reading an
    inactive union member, dereferencing a null or out-of-bounds
    pointer) evaluate to the distinguished result `StepRes.ub`;
  - bytecode is structured: each opcode carries its inline operands
    (CLOSURE carries its `(is_local, index)` pair list, which the C++
    reads as `upvalue_count` trailing byte pairs).
-/

/-- Value (value.h): tagged scalar; Object values hold the heap id. -/
inductive Value where
  | vnil : Value
  | vbool (b : Bool) : Value
  | vnum (n : Int) : Value
  | vobj (id : Nat) : Value
deriving DecidableEq, Repr

/-- Value::operator== (value.h): same tag required; objects compare by
handle identity. -/
def valueEq : Value → Value → Bool
  | Value.vnil, Value.vnil => true
  | Value.vbool a, Value.vbool b => a == b
  | Value.vnum a, Value.vnum b => a == b
  | Value.vobj a, Value.vobj b => a == b
  | _, _ => false

/-- Value::is_falsey (value.h): nil and false are falsey. -/
def isFalsey : Value → Bool
  | Value.vnil => true
  | Value.vbool b => !b
  | _ => false

def Value.isNum : Value → Bool
  | Value.vnum _ => true
  | _ => false

def Value.isObj : Value → Bool
  | Value.vobj _ => true
  | _ => false

/-- Structured bytecode instruction (chunk.h OpCode plus inline
operands).  Only the opcodes exercised by the claims are modelled; each
modelled case follows its vm.cpp handler exactly. -/
inductive Instr where
  | iret : Instr
  | ipop : Instr
  | inil : Instr
  | itrue : Instr
  | ifalse : Instr
  | iconst (idx : Nat) : Instr
  | iadd : Instr
  | igetLocal (slot : Nat) : Instr
  | isetLocal (slot : Nat) : Instr
  | igetUpvalue (slot : Nat) : Instr
  | isetUpvalue (slot : Nat) : Instr
  | icloseUpvalue : Instr
  | icall (argc : Nat) : Instr
  | iclosure (cidx : Nat) (pairs : List (Bool × Nat)) : Instr
  | iinvoke (nameIdx : Nat) (argc : Nat) : Instr
  | isuperInvoke (nameIdx : Nat) (argc : Nat) : Instr
deriving DecidableEq, Repr

/-- Heap object (object.h variants).  Methods of a class map a name to
an `Option Nat`: `some id` is a ClosureObject pointer, `none` is a null
pointer (absl operator[] default-inserts value-initialized pointers). -/
inductive Obj where
  | ostring (s : String) : Obj
  | ofunction (name : String) (arity : Nat) (upvalueCount : Nat)
      (code : List Instr) (constants : List Value) : Obj
  | oupvalue (location : Option Nat) (closed : Value) : Obj
  | oclosure (fid : Nat) (upvals : List Nat) : Obj
  | oklass (name : String) (methods : List (String × Option Nat)) : Obj
  | oinst (kid : Nat) (fields : List (String × Value)) : Obj
  | obound (receiver : Value) (methodId : Nat) : Obj
  | onative (tag : Nat) : Obj
deriving DecidableEq, Repr

/-- Association-list lookup, modelling absl::flat_hash_map::find. -/
def lookupStr {α : Type} : List (String × α) → String → Option α
  | [], _ => none
  | (k, v) :: rest, key => if k = key then some v else lookupStr rest key

/-- ObjectAllocator (object.h): owns every object (`_objects`, in
allocation order) and the string-interning map (`_interned_strings`). -/
structure Heap where
  objs : List (Nat × Obj)
  interned : List (String × Nat)
  nextId : Nat
deriving DecidableEq, Repr

def heapGet (h : Heap) (id : Nat) : Option Obj :=
  (h.objs.find? (fun p => p.1 == id)).map (fun p => p.2)

def heapSet (h : Heap) (id : Nat) (o : Obj) : Heap :=
  { h with objs := h.objs.map (fun p => if p.1 == id then (p.1, o) else p) }

/-- ObjectAllocator::allocate (object.h): construct the object and
append it to the object list.  (The `collect` flag and allocation
pressure are modelled separately; see `collectGarbage`.) -/
def allocate (h : Heap) (o : Obj) : Nat × Heap :=
  (h.nextId, { objs := h.objs ++ [(h.nextId, o)], interned := h.interned, nextId := h.nextId + 1 })

/-- ObjectAllocator::allocate_string (object.cpp): return the interned
object when the text is already in the map, else allocate a fresh
StringObject and record it. -/
def allocateString (h : Heap) (s : String) : Nat × Heap :=
  match lookupStr h.interned s with
  | some id => (id, h)
  | none =>
      let (id, h1) := allocate h (Obj.ostring s)
      (id, { h1 with interned := h1.interned ++ [(s, id)] })

/-- Stack<Value, STACK_MAX> (stack.h): a preallocated array plus a top
counter.  `data` is the array contents written so far; `top` is `_top`.
`pop_to`/`pop_by` only move the counter, leaving the array intact. -/
structure VStack where
  data : List Value
  top : Nat
deriving DecidableEq, Repr

/-- Read the backing array at an index (valid wherever the C++ read is;
slots beyond `top` keep their last written value, as in stack.h). -/
def VStack.get (s : VStack) (i : Nat) : Value :=
  s.data.getD i Value.vnil

def VStack.push (s : VStack) (v : Value) : VStack :=
  { data := if s.top < s.data.length then s.data.set s.top v else s.data ++ [v],
    top := s.top + 1 }

/-- Stack::pop: decrement the counter and return the old top element. -/
def VStack.pop (s : VStack) : VStack × Value :=
  ({ s with top := s.top - 1 }, s.get (s.top - 1))

def VStack.popBy (s : VStack) (n : Nat) : VStack :=
  { s with top := s.top - n }

def VStack.popTo (s : VStack) (n : Nat) : VStack :=
  { s with top := n }

/-- Stack::top(): the element at index `_top - 1`.  Note that
`top_addr()` is the address of this element, i.e. index `top - 1`. -/
def VStack.peek (s : VStack) : Value :=
  s.get (s.top - 1)

def VStack.setAt (s : VStack) (i : Nat) (v : Value) : VStack :=
  { s with data := s.data.set i v }

/-- CallFrame (common.h): closure, instruction pointer, and the operand
stack index of the call's slot 0.  The C++ ip points into the closure's
chunk; it is modelled as the chunk's code plus a program counter. -/
structure Frame where
  closure : Nat
  code : List Instr
  pc : Nat
  offset : Nat
deriving DecidableEq, Repr

/-- The interpreter state: the components VM and ObjectAllocator share
(vm.cpp / object.h).  `frames` holds the call stack, top frame first.
`openUpvalues` is `_open_upvalues`, in insertion order. -/
structure VMState where
  heap : Heap
  stack : VStack
  globals : List (String × Value)
  frames : List Frame
  openUpvalues : List Nat
deriving DecidableEq, Repr

/-- Runtime errors (vm.cpp `_runtime_error` call sites). -/
inductive RtErr where
  | operandsMustBeNumbers : RtErr
  | operandMustBeNumber : RtErr
  | addOperands : RtErr
  | canOnlyCall : RtErr
  | wrongArity (expected got : Nat) : RtErr
  | stackOverflow : RtErr
  | onlyInstancesHaveMethods : RtErr
  | undefinedMethodSuper : RtErr
  | undefinedProperty : RtErr
deriving DecidableEq, Repr

/-- Result of one dispatch step.  `ub` marks a point where the C++
performs undefined behaviour (inactive union member read, null or
out-of-bounds pointer dereference). -/
inductive StepRes where
  | ok (s : VMState) : StepRes
  | finished : StepRes
  | rte (e : RtErr) : StepRes
  | ub : StepRes
deriving DecidableEq, Repr

/-- VM::_close_upvalues (vm.cpp:228): erase from the open list every
upvalue whose location is not strictly below `last`, first copying the
stack value it points at into its `closed` slot.  `last` is the stack
index the C++ `Value* last` pointer refers to; the pointer order of
slots in the contiguous array is their index order. -/
def closeUpvalues : Heap → List Nat → List Value → Nat → Heap × List Nat
  | h, [], _, _ => (h, [])
  | h, id :: rest, sd, last =>
    match heapGet h id with
    | some (Obj.oupvalue (some loc) _) =>
        if loc < last then
          let (h1, keep) := closeUpvalues h rest sd last
          (h1, id :: keep)
        else
          let h1 := heapSet h id (Obj.oupvalue none (sd.getD loc Value.vnil))
          closeUpvalues h1 rest sd last
    | _ =>
        -- the open list only ever holds open upvalues
        let (h1, keep) := closeUpvalues h rest sd last
        (h1, id :: keep)

def findOpenUpvalue (h : Heap) (ouv : List Nat) (loc : Nat) : Option Nat :=
  ouv.find? (fun id =>
    match heapGet h id with
    | some (Obj.oupvalue (some l) _) => l == loc
    | _ => false)

/-- VM::_capture_upvalue (vm.cpp:188): reuse the open upvalue already
capturing this stack slot, else allocate one and append it to the open
list.  (UpValueObject's `closed` member is default-constructed nil.) -/
def captureUpvalue (h : Heap) (ouv : List Nat) (loc : Nat) : Nat × Heap × List Nat :=
  match findOpenUpvalue h ouv loc with
  | some id => (id, h, ouv)
  | none =>
      let (id, h1) := allocate h (Obj.oupvalue (some loc) Value.vnil)
      (id, h1, ouv ++ [id])

/-- VM::_call (vm.cpp:116): arity check, MAX_FRAMES (64) check, then
push a frame whose offset is `stack.size() - arg_count - 1`. -/
def callClosure (s : VMState) (cid : Nat) (argc : Nat) : StepRes :=
  match heapGet s.heap cid with
  | some (Obj.oclosure fid _) =>
    match heapGet s.heap fid with
    | some (Obj.ofunction _ arity _ code _) =>
        if argc ≠ arity then StepRes.rte (RtErr.wrongArity arity argc)
        else if s.frames.length == 64 then StepRes.rte RtErr.stackOverflow
        else StepRes.ok { s with frames :=
          { closure := cid, code := code, pc := 0,
            offset := s.stack.top - argc - 1 } :: s.frames }
    | _ => StepRes.ub
  | _ => StepRes.ub

/-- `klass->methods["init"]` (vm.cpp:80): absl::flat_hash_map
operator[] returns the mapped pointer, default-inserting a
value-initialized (null) pointer when the key is absent. -/
def getOrInsertInit (m : List (String × Option Nat)) : Option Nat × List (String × Option Nat) :=
  match lookupStr m "init" with
  | some v => (v, m)
  | none => (none, m ++ [("init", none)])

/-- VM::_call_value (vm.cpp:68): dispatch on the callee object kind. -/
def callValue (s : VMState) (callee : Value) (argc : Nat) : StepRes :=
  match callee with
  | Value.vobj id =>
    match heapGet s.heap id with
    | some (Obj.oclosure _ _) => callClosure s id argc
    | some (Obj.oklass kname methods) =>
        let slot := s.stack.top - argc - 1
        let (iid, h1) := allocate s.heap (Obj.oinst id [])
        let s1 := { s with heap := h1, stack := s.stack.setAt slot (Value.vobj iid) }
        let (initializer, methods1) := getOrInsertInit methods
        let s2 := { s1 with heap := heapSet s1.heap id (Obj.oklass kname methods1) }
        match initializer with
        | some mid => callClosure s2 mid argc
        | none =>
            if argc ≠ 0 then StepRes.rte (RtErr.wrongArity 0 argc)
            else StepRes.ok s2
    | some (Obj.obound receiver mid) =>
        let slot := s.stack.top - argc - 1
        callClosure { s with stack := s.stack.setAt slot receiver } mid argc
    | some (Obj.onative _) =>
        -- the native is called on the argument window; the installed
        -- natives (clock, print) lie outside the modelled claims, and
        -- print returns Value{} = nil.
        StepRes.ok { s with stack := (s.stack.popBy (argc + 1)).push Value.vnil }
    | _ => StepRes.rte RtErr.canOnlyCall
  | _ => StepRes.rte RtErr.canOnlyCall

/-- The part of VM::_invoke after `klass` has been resolved: method
lookup in the consulted class `kid`, the super-call-only check
`klass != &receiver->klass` (ids compare like the pointers), then field
lookup on the receiver `rid` whose own class is `rkid`.  A method entry
holding a null pointer reaches `_call(nullptr, ...)`, which dereferences
it: undefined behaviour. -/
def invokeLookup (s : VMState) (name : String) (argc : Nat) (rid rkid kid : Nat) : StepRes :=
  match heapGet s.heap kid with
  | some (Obj.oklass _ methods) =>
    match lookupStr methods name with
    | some (some mid) => callClosure s mid argc
    | some none => StepRes.ub
    | none =>
        if kid ≠ rkid then StepRes.rte RtErr.undefinedMethodSuper
        else
          match heapGet s.heap rid with
          | some (Obj.oinst _ fields) =>
            match lookupStr fields name with
            | some v =>
                let slot := s.stack.top - argc - 1
                callValue { s with stack := s.stack.setAt slot v } v argc
            | none => StepRes.rte RtErr.undefinedProperty
          | _ => StepRes.ub
  | _ => StepRes.ub

/-- VM::_invoke (vm.cpp:141), faithful to the statement order: the
receiver slot is cast via `as_object()->as<InstanceObject>()` and
`klass = klass ? klass : &receiver->klass` is evaluated BEFORE the
`if(!receiver)` check.  Hence a non-object receiver reads an inactive
union member (ub), and an object non-instance receiver dereferences the
null `receiver` pointer on the normal INVOKE path (`superK = none`),
before the error branch can run. -/
def invokeAux (s : VMState) (name : String) (argc : Nat) (superK : Option Nat) : StepRes :=
  match s.stack.get (s.stack.top - argc - 1) with
  | Value.vobj rid =>
    match heapGet s.heap rid with
    | some (Obj.oinst rkid _) =>
        let kid := match superK with
          | some k => k
          | none => rkid
        invokeLookup s name argc rid rkid kid
    | _ =>
        match superK with
        | none => StepRes.ub
        | some _ => StepRes.rte RtErr.onlyInstancesHaveMethods
  | _ => StepRes.ub

/-- The CLOSURE operand loop (vm.cpp:466): for the i-th pair, a local
pair captures stack slot `index + offset`; a non-local pair takes
`_current_frame->closure->upvalues[i]` — the subscript in the source is
the loop index `i`, not the operand `index`.  An out-of-range vector
subscript is undefined behaviour (`none`). -/
def buildUpvalues (h : Heap) (ouv : List Nat) (offset : Nat) (curUpvals : List Nat) :
    List (Bool × Nat) → Nat → Option (List Nat × Heap × List Nat)
  | [], _ => some ([], h, ouv)
  | (isLocal, index) :: rest, i =>
    if isLocal then
      let (id, h1, ouv1) := captureUpvalue h ouv (index + offset)
      match buildUpvalues h1 ouv1 offset curUpvals rest (i + 1) with
      | some (ids, h2, ouv2) => some (id :: ids, h2, ouv2)
      | none => none
    else
      match curUpvals.get? i with
      | some id =>
        match buildUpvalues h ouv offset curUpvals rest (i + 1) with
        | some (ids, h2, ouv2) => some (id :: ids, h2, ouv2)
        | none => none
      | none => none

/-- The current frame's chunk constants
(`_current_frame->closure->function.chunk`). -/
def frameConstants (h : Heap) (f : Frame) : Option (List Value) :=
  match heapGet h f.closure with
  | some (Obj.oclosure fid _) =>
    match heapGet h fid with
    | some (Obj.ofunction _ _ _ _ consts) => some consts
    | _ => none
  | _ => none

/-- The current frame's closure upvalue vector. -/
def frameUpvals (h : Heap) (f : Frame) : Option (List Nat) :=
  match heapGet h f.closure with
  | some (Obj.oclosure _ ups) => some ups
  | _ => none

/-- A chunk constant that must be a StringObject
(`get_constant(..).as_object()->as<StringObject>()`). -/
def constString (h : Heap) (f : Frame) (idx : Nat) : Option String :=
  match frameConstants h f with
  | some consts =>
    match consts.get? idx with
    | some (Value.vobj id) =>
      match heapGet h id with
      | some (Obj.ostring s) => some s
      | _ => none
    | _ => none
  | none => none

/-- The string cast in the ADD handler
(`as_object()->as<StringObject>()` on an already-checked object). -/
def asStringObj (h : Heap) (v : Value) : Option String :=
  match v with
  | Value.vobj id =>
    match heapGet h id with
    | some (Obj.ostring s) => some s
    | _ => none
  | _ => none

/-- One iteration of VM::_run's dispatch loop (vm.cpp:276), for the
modelled opcodes.  The `_read_byte` calls advance the ip before the
handler body runs, so the pc is bumped first and helpers see the bumped
frame. -/
def execStep (s : VMState) : StepRes :=
  match s.frames with
  | [] => StepRes.ub
  | frame :: rest =>
    match frame.code.get? frame.pc with
    | none => StepRes.ub
    | some instr =>
      let frame1 : Frame := { frame with pc := frame.pc + 1 }
      let s1 : VMState := { s with frames := frame1 :: rest }
      match instr with
      | Instr.iret =>
          let (st1, ret) := s1.stack.pop
          if rest.isEmpty then
            -- returning from the top-level script: pop frame and slot, OK
            StepRes.finished
          else
            -- pop the returning frame; reset the stack to its offset;
            -- close upvalues at _stack.top_addr() — the address of
            -- index top - 1 AFTER the truncation; push the result.
            let st2 := st1.popTo frame1.offset
            let (h1, ouv1) := closeUpvalues s1.heap s1.openUpvalues st2.data (st2.top - 1)
            let st3 := st2.push ret
            StepRes.ok { s1 with heap := h1, stack := st3, frames := rest, openUpvalues := ouv1 }
      | Instr.ipop =>
          StepRes.ok { s1 with stack := (s1.stack.pop).1 }
      | Instr.inil =>
          StepRes.ok { s1 with stack := s1.stack.push Value.vnil }
      | Instr.itrue =>
          StepRes.ok { s1 with stack := s1.stack.push (Value.vbool true) }
      | Instr.ifalse =>
          StepRes.ok { s1 with stack := s1.stack.push (Value.vbool false) }
      | Instr.iconst idx =>
          match frameConstants s1.heap frame1 with
          | some consts =>
            match consts.get? idx with
            | some v => StepRes.ok { s1 with stack := s1.stack.push v }
            | none => StepRes.ub
          | none => StepRes.ub
      | Instr.iadd =>
          -- auto& b = _stack.top(); auto& a = _stack[_stack.size() - 2];
          let b := s1.stack.peek
          let a := s1.stack.get (s1.stack.top - 2)
          match a, b with
          | Value.vnum x, Value.vnum y =>
              StepRes.ok { s1 with stack := (s1.stack.popBy 2).push (Value.vnum (x + y)) }
          | _, _ =>
              if a.isObj && b.isObj then
                match asStringObj s1.heap a, asStringObj s1.heap b with
                | some sa, some sb =>
                    let st1 := s1.stack.popBy 2
                    let (sid, h1) := allocateString s1.heap (sa ++ sb)
                    StepRes.ok { s1 with heap := h1, stack := st1.push (Value.vobj sid) }
                | _, _ => StepRes.rte RtErr.addOperands
              else StepRes.rte RtErr.addOperands
      | Instr.igetLocal slot =>
          StepRes.ok { s1 with stack := s1.stack.push (s1.stack.get (slot + frame1.offset)) }
      | Instr.isetLocal slot =>
          StepRes.ok { s1 with stack := s1.stack.setAt (slot + frame1.offset) s1.stack.peek }
      | Instr.igetUpvalue slot =>
          match frameUpvals s1.heap frame1 with
          | some ups =>
            match ups.get? slot with
            | some uid =>
              match heapGet s1.heap uid with
              | some (Obj.oupvalue loc closed) =>
                  let v := match loc with
                    | some l => s1.stack.get l
                    | none => closed
                  StepRes.ok { s1 with stack := s1.stack.push v }
              | _ => StepRes.ub
            | none => StepRes.ub
          | none => StepRes.ub
      | Instr.isetUpvalue slot =>
          match frameUpvals s1.heap frame1 with
          | some ups =>
            match ups.get? slot with
            | some uid =>
              match heapGet s1.heap uid with
              | some (Obj.oupvalue loc closed) =>
                  match loc with
                  | some l =>
                      StepRes.ok { s1 with stack := s1.stack.setAt l s1.stack.peek }
                  | none =>
                      -- location points at the upvalue's own closed slot
                      let _ := closed
                      let h1 := heapSet s1.heap uid (Obj.oupvalue none s1.stack.peek)
                      StepRes.ok { s1 with heap := h1 }
              | _ => StepRes.ub
            | none => StepRes.ub
          | none => StepRes.ub
      | Instr.icloseUpvalue =>
          let (h1, ouv1) := closeUpvalues s1.heap s1.openUpvalues s1.stack.data (s1.stack.top - 1)
          StepRes.ok { s1 with heap := h1, openUpvalues := ouv1, stack := (s1.stack.pop).1 }
      | Instr.icall argc =>
          callValue s1 (s1.stack.get (s1.stack.top - argc - 1)) argc
      | Instr.iclosure cidx pairs =>
          match frameConstants s1.heap frame1 with
          | some consts =>
            match consts.get? cidx with
            | some (Value.vobj fid) =>
              match heapGet s1.heap fid, frameUpvals s1.heap frame1 with
              | some (Obj.ofunction _ _ _ _ _), some curUps =>
                match buildUpvalues s1.heap s1.openUpvalues frame1.offset curUps pairs 0 with
                | some (ids, h1, ouv1) =>
                    let (cid, h2) := allocate h1 (Obj.oclosure fid ids)
                    let st1 := s1.stack.push (Value.vobj cid)
                    StepRes.ok { s1 with heap := h2, openUpvalues := ouv1, stack := st1 }
                | none => StepRes.ub
              | _, _ => StepRes.ub
            | _ => StepRes.ub
          | none => StepRes.ub
      | Instr.iinvoke nameIdx argc =>
          match constString s1.heap frame1 nameIdx with
          | some name => invokeAux s1 name argc none
          | none => StepRes.ub
      | Instr.isuperInvoke nameIdx argc =>
          match constString s1.heap frame1 nameIdx with
          | some name =>
              let (st1, sv) := s1.stack.pop
              let s2 := { s1 with stack := st1 }
              match sv with
              | Value.vobj sid =>
                  let superK : Option Nat :=
                    match heapGet s2.heap sid with
                    | some (Obj.oklass _ _) => some sid
                    | _ => none
                  invokeAux s2 name argc superK
              | _ => StepRes.ub
          | none => StepRes.ub

/-- Iterate `execStep` for at most `n` steps (the C++ loop runs until
RETURN from the script or an error). -/
def runSteps : Nat → VMState → StepRes
  | 0, s => StepRes.ok s
  | n + 1, s =>
    match execStep s with
    | StepRes.ok s1 => runSteps n s1
    | r => r

def resState : StepRes → Option VMState
  | StepRes.ok s => some s
  | _ => none

def resTop : StepRes → Option Value
  | StepRes.ok s => some s.stack.peek
  | _ => none

def resDepth : StepRes → Option Nat
  | StepRes.ok s => some s.stack.top
  | _ => none

/-!
## C1 — RETURN and the close boundary

State immediately before a RETURN executes in a two-frame run, as
reached by e.g.

  fun callee() { }
  fun outer() {
    var x = 1;
    { fun f() { x = 99; } g = f; }   -- captures x, then f's slot is popped
    callee();                        -- callee lands just above x
  }

Heap: 0 = script function, 1 = script closure, 2 = callee function,
3 = callee closure, 4 = the still-open upvalue capturing the CALLER's
local x at stack slot 1.  The returning frame's base (offset) is 2: its
slot 0 holds the callee closure.  Stack: [script closure, x = 10,
callee closure, return value 7], about to execute RETURN (pc 1 of the
callee's [NIL, RETURN]).
-/

def c1Heap : Heap :=
  { objs := [ (0, Obj.ofunction "" 0 0 [] []),
              (1, Obj.oclosure 0 []),
              (2, Obj.ofunction "callee" 0 0 [Instr.inil, Instr.iret] []),
              (3, Obj.oclosure 2 []),
              (4, Obj.oupvalue (some 1) Value.vnil) ],
    interned := [], nextId := 5 }

def c1Frame : Frame :=
  { closure := 3, code := [Instr.inil, Instr.iret], pc := 1, offset := 2 }

def c1State : VMState :=
  { heap := c1Heap,
    stack := { data := [Value.vobj 1, Value.vnum 10, Value.vobj 3, Value.vnum 7], top := 4 },
    globals := [],
    frames := [ c1Frame, { closure := 1, code := [], pc := 0, offset := 0 } ],
    openUpvalues := [4] }

/-- C1: the claim says RETURN closes exactly the open upvalues whose
location is at or above the returning frame's base slot, and no open
upvalue of a caller's still-live slot below the base.  In the embedded
state the returning frame's base is slot 2 while upvalue 4 captures the
caller's slot 1; because vm.cpp truncates first and then passes
`_stack.top_addr()` (the address of index base − 1) to
`_close_upvalues`, executing RETURN closes that upvalue as well: the
claim is false on the code.  (The rest of the claimed effects do
happen: the frame is popped, the stack is truncated to the base, and
the return value is pushed.) -/
theorem C1_return_closes_upvalue_below_base :
    heapGet c1State.heap 4 = some (Obj.oupvalue (some 1) Value.vnil)
    ∧ c1Frame.offset = 2
    ∧ (resState (execStep c1State)).map (fun s => heapGet s.heap 4)
        = some (some (Obj.oupvalue none (Value.vnum 10)))
    ∧ (resState (execStep c1State)).map (fun s => s.openUpvalues) = some []
    ∧ resDepth (execStep c1State) = some 3
    ∧ resTop (execStep c1State) = some (Value.vnum 7) := by
  exact ⟨rfl, rfl, rfl, rfl, rfl, rfl⟩

/-!
## C6 — INVOKE on a non-instance receiver

State about to execute `INVOKE "m", 0` with the receiver slot holding,
in turn, nil, a number, and a (non-instance) string object — e.g. the
programs `var x; x.m();`, `var x = 3; x.m();`, `"s".m();`.
-/

def c6Heap : Heap :=
  { objs := [ (0, Obj.ofunction "" 0 0 [Instr.iinvoke 0 0] [Value.vobj 2]),
              (1, Obj.oclosure 0 []),
              (2, Obj.ostring "m") ],
    interned := [("m", 2)], nextId := 3 }

def c6State (receiver : Value) : VMState :=
  { heap := c6Heap,
    stack := { data := [Value.vobj 1, receiver], top := 2 },
    globals := [],
    frames := [ { closure := 1, code := [Instr.iinvoke 0 0], pc := 0, offset := 0 } ],
    openUpvalues := [] }

/-- C6: the claim says INVOKE on a non-Instance receiver reports the
property-on-non-instance runtime error safely, without dereferencing
the receiver as an instance, for every non-Instance receiver including
nil and numbers.  In vm.cpp `_invoke` the receiver is produced by
`as_object()->as<InstanceObject>()` and `&receiver->klass` is evaluated
before the `if(!receiver)` check, so for a nil or number receiver the
inactive union member is read and for an object non-instance receiver
the null pointer is dereferenced — undefined behaviour is reached
before the error branch, for all three receivers, and no state reaches
the runtime error `Only instances have methods.`: the claim is false on
the code. -/
theorem C6_invoke_non_instance_is_ub :
    execStep (c6State Value.vnil) = StepRes.ub
    ∧ execStep (c6State (Value.vnum 3)) = StepRes.ub
    ∧ execStep (c6State (Value.vobj 2)) = StepRes.ub
    ∧ StepRes.ub ≠ StepRes.rte RtErr.onlyInstancesHaveMethods := by
  exact ⟨rfl, rfl, rfl, by decide⟩

/-!
## Compiler upvalue resolution (compiler.cpp)
-/

/-- Compiler upvalue record (compiler.h `UpValue`). -/
structure CUp where
  index : Nat
  isLocal : Bool
deriving DecidableEq, Repr

/-- Per-function compiler state: the locals array indexed by slot
(slot 0 is the reserved entry) and the upvalue array.  Scope depths and
the is_captured flags play no role in the resolved indices and are not
tracked. -/
structure CState where
  locals : List String
  upvalues : List CUp
deriving DecidableEq, Repr

def resolveLocalRev : List (Nat × String) → String → Option Nat
  | [], _ => none
  | (i, n) :: rest, name => if n = name then some i else resolveLocalRev rest name

/-- Compiler::_resolve_local (compiler.cpp:651): scan the locals from
the top down; the nearest match's slot wins. -/
def resolveLocal (locals : List String) (name : String) : Option Nat :=
  resolveLocalRev locals.enum.reverse name

/-- Compiler::_add_upvalue (compiler.cpp:691): reuse an entry equal in
`(index, is_local)`, else append one and return its position.  (The
MAX_UPVALUES guard is never reached by the claims and is omitted.) -/
def addUpvalue (cs : CState) (index : Nat) (isLocal : Bool) : Nat × CState :=
  match cs.upvalues.findIdx? (fun u => u.index == index && u.isLocal == isLocal) with
  | some i => (i, cs)
  | none => (cs.upvalues.length, { cs with upvalues := cs.upvalues ++ [⟨index, isLocal⟩] })

/-- Compiler::_resolve_upvalue (compiler.cpp:666) for the compiler with
state `cur` and enclosing chain `chain` (nearest first): a local of the
immediate enclosing function registers `{slot, is_local=true}`; an
upvalue resolved recursively in the enclosing function registers
`{enclosing upvalue position, is_local=false}`.  Returns the upvalue
position in `cur` plus the updated compiler states. -/
def resolveUpvalue : CState → List CState → String → Option Nat × CState × List CState
  | cur, [], _ => (none, cur, [])
  | cur, enc :: rest, name =>
    match resolveLocal enc.locals name with
    | some slot =>
        let (i, cur1) := addUpvalue cur slot true
        (some i, cur1, enc :: rest)
    | none =>
        match resolveUpvalue enc rest name with
        | (some upIdx, enc1, rest1) =>
            let (i, cur1) := addUpvalue cur upIdx false
            (some i, cur1, enc1 :: rest1)
        | (none, enc1, rest1) => (none, cur, enc1 :: rest1)

/-- The CLOSURE operand pairs emitted for a compiled nested function
(compiler.cpp:329-333): one `(is_local, index)` byte pair per upvalue,
in upvalue order. -/
def emitUpvaluePairs (ups : List CUp) : List (Bool × Nat) :=
  ups.map (fun u => (u.isLocal, u.index))

/-!
## C3 — non-local upvalue pairs in CLOSURE

Failing program:

  fun a() {
    var u1 = 1; var u2 = 2;
    fun b() {
      u2;                      -- forces b upvalue 0 = u2
      fun c() { return u1; }   -- b upvalue 1 = u1; c upvalue 0 = {1, non-local}
      return c;
    }
    return b;
  }

Compiler side: `a` has locals [slot0, u1, u2]; `b` first resolves u2
(registering b upvalue 0 = {2, local}); then, while compiling `c`, u1
resolves through `b` (b upvalue 1 = {1, local}) and `c` registers
upvalue 0 = {1, is_local=false}, emitted as the pair (false, 1).

VM side, at the CLOSURE instruction for `c` inside b's frame: heap 10 =
u2's upvalue, 11 = u1's upvalue, 12 = c's function (upvalue_count 1),
13 = b's function, 14 = b's closure with upvalues [10, 11].
-/

def c3A : CState := { locals := ["", "u1", "u2"], upvalues := [] }

def c3B0 : CState := { locals := [""], upvalues := [] }

def c3B1 : CState := (resolveUpvalue c3B0 [c3A] "u2").2.1

def c3C0 : CState := { locals := [""], upvalues := [] }

def c3CRes : Option Nat × CState × List CState := resolveUpvalue c3C0 [c3B1, c3A] "u1"

def c3Heap : Heap :=
  { objs := [ (10, Obj.oupvalue (some 2) Value.vnil),
              (11, Obj.oupvalue (some 1) Value.vnil),
              (12, Obj.ofunction "c" 0 1 [] []),
              (13, Obj.ofunction "b" 0 2 [Instr.iclosure 0 [(false, 1)]] [Value.vobj 12]),
              (14, Obj.oclosure 13 [10, 11]) ],
    interned := [], nextId := 15 }

def c3State : VMState :=
  { heap := c3Heap,
    stack := { data := [Value.vnum 0, Value.vnum 1, Value.vnum 2, Value.vobj 14], top := 4 },
    globals := [],
    frames := [ { closure := 14, code := [Instr.iclosure 0 [(false, 1)]], pc := 0, offset := 3 } ],
    openUpvalues := [10, 11] }

/-- C3: the claim says that for a non-local pair `(is_local=false,
index)` processed as the i-th upvalue of CLOSURE, the new closure's
i-th upvalue is the enclosing closure's upvalue at position `index`.
The embedded compiler registers exactly the pair {index 1,
is_local=false} at position 0 for the program above, but the vm.cpp
handler subscripts the enclosing upvalue vector with the loop index
`i`, not with `index`: the new closure receives upvalue 10 (the
enclosing position 0, u2's upvalue) instead of 11 (position `index` =
1, u1's upvalue).  The claim is false on the code. -/
theorem C3_closure_nonlocal_uses_loop_index :
    c3CRes.1 = some 0
    ∧ (c3CRes.2.1).upvalues = [⟨1, false⟩]
    ∧ emitUpvaluePairs (c3CRes.2.1).upvalues = [(false, 1)]
    ∧ (resState (execStep c3State)).map (fun s => heapGet s.heap 15)
        = some (some (Obj.oclosure 12 [10]))
    ∧ heapGet c3Heap 14 = some (Obj.oclosure 13 [10, 11])
    ∧ (10 : Nat) ≠ 11 := by
  exact ⟨rfl, rfl, rfl, rfl, rfl, by decide⟩

/-!
## Compiler: function kinds, return emission, statement/call emission
(compiler.cpp)
-/

/-- Compiler::FunctionType (compiler.h). -/
inductive FunctionType where
  | script : FunctionType
  | function : FunctionType
  | method : FunctionType
  | initializer : FunctionType
deriving DecidableEq, Repr

/-- Compiler::Error (compiler.h / compiler.cpp `_get_error_message`). -/
inductive CompileErr where
  | localVariableLimitExceeded : CompileErr
  | redefinedVariableInSameScope : CompileErr
  | chunkConstantLimitExceeded : CompileErr
  | jumpLimitExceeded : CompileErr
  | loopLimitExceeded : CompileErr
  | returnOutsideFunction : CompileErr
  | upvalueLimitExceeded : CompileErr
  | thisOutsideClass : CompileErr
  | returnInsideInitializer : CompileErr
  | cyclicInheritance : CompileErr
  | superNoSuperClass : CompileErr
  | superOutsideClass : CompileErr
deriving DecidableEq, Repr

/-- Compiler::_emit_return (compiler.cpp:59): an initializer loads
local slot 0 (`this` occupies the reserved first slot); every other
function type pushes NIL; then RETURN. -/
def emitReturn (t : FunctionType) : List Instr :=
  (if t = FunctionType.initializer then [Instr.igetLocal 0] else [Instr.inil]) ++ [Instr.iret]

/-- Compiler::operator()(const ReturnStmtNode&) (compiler.cpp:286):
`return` outside a function is an error; `return expr;` inside an
initializer is an error; `return expr;` compiles the expression (here
abstracted to its code) and RETURN; bare `return;` emits
`_emit_return`. -/
def compileReturnStmt (t : FunctionType) (value : Option (List Instr)) :
    Except CompileErr (List Instr) :=
  if t = FunctionType.script then Except.error CompileErr.returnOutsideFunction
  else
    match value with
    | some code =>
        if t = FunctionType.initializer then Except.error CompileErr.returnInsideInitializer
        else Except.ok (code ++ [Instr.iret])
    | none => Except.ok (emitReturn t)

/-- Compiler::_compile_function (compiler.cpp:75): the compiled body
followed by the implicit `_emit_return`. -/
def compileFunctionBody (t : FunctionType) (body : List Instr) : List Instr :=
  body ++ emitReturn t

/-- Compiler::operator()(const CallNode&) (compiler.cpp:413), the
super-callee branch: the callee expression is NOT compiled; each
argument is compiled; then the `super` variable is pushed
(`_compile_named_variable(super->super)`) and SUPER_INVOKE is emitted.
No emitted instruction pushes the receiver (`this`). -/
def compileSuperCall (args : List (List Instr)) (superGet : Instr) (nameIdx argc : Nat) :
    List Instr :=
  args.flatten ++ [superGet, Instr.isuperInvoke nameIdx argc]

/-- Compiler::operator()(const ExprStmtNode&) (compiler.cpp:232): the
expression's code followed by POP. -/
def compileExprStmt (expr : List Instr) : List Instr :=
  expr ++ [Instr.ipop]

/-!
## C8 — expression-statement stack neutrality

Failing program:

  class A { g() {} }
  class B < A { g() { super.g(); } }
  B().g();

The body of B.g is the expression statement `super.g();` followed by
the implicit method return.  Heap: 0/1 script function and closure,
2 = class A (method g = closure 6), 3 = class B, 4 = the closed `super`
upvalue holding class A, 5/6 = A.g function and closure, 7/8 = B.g
function and closure (upvalue [4]), 9 = the B instance, 10 = the
string "g".  B.g's frame has offset 1: slot 1 holds `this` and the
stack depth at the start of the statement is 2.
-/

def c8Code : List Instr :=
  compileExprStmt (compileSuperCall [] (Instr.igetUpvalue 0) 0 0) ++ emitReturn FunctionType.method

def c8Heap : Heap :=
  { objs := [ (0, Obj.ofunction "" 0 0 [] []),
              (1, Obj.oclosure 0 []),
              (2, Obj.oklass "A" [("g", some 6)]),
              (3, Obj.oklass "B" [("g", some 8)]),
              (4, Obj.oupvalue none (Value.vobj 2)),
              (5, Obj.ofunction "g" 0 0 [Instr.inil, Instr.iret] []),
              (6, Obj.oclosure 5 []),
              (7, Obj.ofunction "g" 0 0 c8Code [Value.vobj 10]),
              (8, Obj.oclosure 7 [4]),
              (9, Obj.oinst 3 []),
              (10, Obj.ostring "g") ],
    interned := [("g", 10)], nextId := 11 }

def c8State : VMState :=
  { heap := c8Heap,
    stack := { data := [Value.vobj 1, Value.vobj 9], top := 2 },
    globals := [],
    frames := [ { closure := 8, code := c8Code, pc := 0, offset := 1 },
                { closure := 1, code := [], pc := 0, offset := 0 } ],
    openUpvalues := [] }

/-- C8: the claim says every expression-statement that runs without a
runtime error leaves the operand-stack depth unchanged, for all
expression forms.  The super-call statement `super.g();` refutes it:
its compiled form (GET_UPVALUE super; SUPER_INVOKE g, 0; POP) never
pushes the receiver, so the invoked method's frame base lands on the
caller's own `this` slot (`[1, 1, 0]` below: the new frame's offset
equals the caller frame's offset), and the method's RETURN truncates
one caller slot away.  Running the 5 steps of the statement (including
the callee's NIL/RETURN) from depth 2 ends, without any runtime error,
at depth 1, with the receiver slot overwritten by the call's nil
result.  The claim is false on the code. -/
theorem C8_super_call_statement_shrinks_stack :
    c8Code = [Instr.igetUpvalue 0, Instr.isuperInvoke 0 0, Instr.ipop, Instr.inil, Instr.iret]
    ∧ c8State.stack.top = 2
    ∧ (resState (runSteps 2 c8State)).map (fun s => s.frames.map Frame.offset) = some [1, 1, 0]
    ∧ resDepth (runSteps 5 c8State) = some 1
    ∧ (resState (runSteps 5 c8State)).map (fun s => s.stack.get 1) = some Value.vnil
    ∧ c8State.stack.get 1 = Value.vobj 9 := by
  exact ⟨rfl, rfl, rfl, rfl, rfl, rfl⟩

/-!
## C7 — initializer return semantics

VM trace state: an `init` method body's implicit return
(`emitReturn initializer` = GET_LOCAL 0; RETURN) executing in a frame
whose slot 0 (offset 1) holds the receiver instance.  Heap: 0/1 script
function and closure, 2 = the class, 3/4 = init function and closure,
5 = the receiver instance.
-/

def c7Heap : Heap :=
  { objs := [ (0, Obj.ofunction "" 0 0 [] []),
              (1, Obj.oclosure 0 []),
              (2, Obj.oklass "K" [("init", some 4)]),
              (3, Obj.ofunction "init" 0 0 (emitReturn FunctionType.initializer) []),
              (4, Obj.oclosure 3 []),
              (5, Obj.oinst 2 []) ],
    interned := [], nextId := 6 }

def c7State : VMState :=
  { heap := c7Heap,
    stack := { data := [Value.vobj 1, Value.vobj 5], top := 2 },
    globals := [],
    frames := [ { closure := 4, code := emitReturn FunctionType.initializer, pc := 0, offset := 1 },
                { closure := 1, code := [], pc := 0, offset := 0 } ],
    openUpvalues := [] }

/-- C7: inside an initializer, the bare and the implicit return compile
to GET_LOCAL 0; RETURN, and executing that code from an init frame
leaves the receiver instance (frame slot 0) on the caller's stack;
`return expr;` inside an initializer is rejected at compile time with
ReturnInsideInitializer; and in every non-initializer function type the
implicit return pushes NIL before RETURN. -/
theorem C7_initializer_return_semantics :
    emitReturn FunctionType.initializer = [Instr.igetLocal 0, Instr.iret]
    ∧ compileReturnStmt FunctionType.initializer none
        = Except.ok [Instr.igetLocal 0, Instr.iret]
    ∧ (∀ code : List Instr, compileReturnStmt FunctionType.initializer (some code)
        = Except.error CompileErr.returnInsideInitializer)
    ∧ (∀ (t : FunctionType) (body : List Instr),
        compileFunctionBody t body = body ++ emitReturn t)
    ∧ emitReturn FunctionType.script = [Instr.inil, Instr.iret]
    ∧ emitReturn FunctionType.function = [Instr.inil, Instr.iret]
    ∧ emitReturn FunctionType.method = [Instr.inil, Instr.iret]
    ∧ c7State.stack.get 1 = Value.vobj 5
    ∧ resDepth (runSteps 2 c7State) = some 2
    ∧ resTop (runSteps 2 c7State) = some (Value.vobj 5) := by
  refine ⟨rfl, rfl, fun code => rfl, fun t body => rfl, rfl, rfl, rfl, rfl, rfl, rfl⟩

/-!
## C10 — CALL on a Class value and the method table

Helper lemmas about heap lookups, then the exact effect of
`VM::_call_value`'s ClassObject branch on the method table.
-/

theorem find?_append_left {α : Type} (l₁ l₂ : List α) (p : α → Bool) (x : α)
    (hx : l₁.find? p = some x) : (l₁ ++ l₂).find? p = some x := by
  induction l₁ with
  | nil => simp [List.find?] at hx
  | cons a tl ih =>
      rw [List.cons_append]
      cases hpa : p a with
      | true =>
          simp only [List.find?, hpa] at hx ⊢
          exact hx
      | false =>
          simp only [List.find?, hpa] at hx ⊢
          exact ih hx

theorem heapGet_allocate (h : Heap) (o : Obj) (id : Nat) (x : Obj)
    (hx : heapGet h id = some x) : heapGet (allocate h o).2 id = some x := by
  unfold heapGet at hx ⊢
  unfold allocate
  cases hf : h.objs.find? (fun p => p.1 == id) with
  | none => rw [hf] at hx; simp at hx
  | some pr =>
      rw [hf] at hx
      simp only [Option.map] at hx
      rw [find?_append_left _ _ _ _ hf]
      simpa using hx

theorem find?_map_set (l : List (Nat × Obj)) (id : Nat) (o : Obj) (x : Nat × Obj)
    (hx : l.find? (fun p => p.1 == id) = some x) :
    (l.map (fun p => if p.1 == id then (p.1, o) else p)).find? (fun p => p.1 == id)
      = some (x.1, o) := by
  induction l with
  | nil => simp [List.find?] at hx
  | cons a tl ih =>
      rw [List.map_cons]
      cases hpa : (a.1 == id) with
      | true =>
          simp only [List.find?, hpa] at hx
          injection hx with hx1
          subst hx1
          simp [List.find?, hpa]
      | false =>
          simp only [List.find?, hpa] at hx
          rw [if_neg (by simp [hpa])]
          simp only [List.find?, hpa]
          exact ih hx

theorem heapGet_heapSet_self (h : Heap) (id : Nat) (o x : Obj)
    (hx : heapGet h id = some x) : heapGet (heapSet h id o) id = some o := by
  unfold heapGet at hx ⊢
  unfold heapSet
  cases hf : h.objs.find? (fun p => p.1 == id) with
  | none => rw [hf] at hx; simp at hx
  | some pr =>
      rw [find?_map_set _ _ o _ hf]
      simp

/-- VM::_call pushes a frame and touches nothing else: a successful
`callClosure` keeps the heap. -/
theorem callClosure_heap (s : VMState) (cid argc : Nat) (s2 : VMState)
    (h : callClosure s cid argc = StepRes.ok s2) : s2.heap = s.heap := by
  unfold callClosure at h
  split at h
  · split at h
    · split at h
      · exact absurd h (by simp)
      · split at h
        · exact absurd h (by simp)
        · injection h with h1; rw [← h1]
    · exact absurd h (by simp)
  · exact absurd h (by simp)

theorem lookupStr_append_other {α : Type} (m : List (String × α)) (e : String × α) (k : String)
    (hk : e.1 ≠ k) : lookupStr (m ++ [e]) k = lookupStr m k := by
  induction m with
  | nil =>
      cases e with
      | mk a b =>
          simp only [List.nil_append, lookupStr]
          rw [if_neg hk]
  | cons a tl ih =>
      cases a with
      | mk ka va =>
          by_cases hka : ka = k
          · simp [lookupStr, hka]
          · simp [lookupStr, hka, ih]

/-- C10 (amended): executing CALL on a Class value evaluates
`klass->methods["init"]`, so the post-call method table is exactly
`(getOrInsertInit methods).2`: unchanged whenever the table already
contains an `init` entry, and otherwise extended by a single
placeholder entry mapping `init` to a null closure pointer; no other
entry is inserted, removed or altered (lookups at every other key are
unchanged).  The claim as stated — the table is never changed at all —
fails for classes without an `init` entry. -/
theorem C10_class_call_method_table :
    (∀ (s : VMState) (id : Nat) (kname : String) (methods : List (String × Option Nat))
        (argc : Nat) (s2 : VMState),
        heapGet s.heap id = some (Obj.oklass kname methods) →
        callValue s (Value.vobj id) argc = StepRes.ok s2 →
        heapGet s2.heap id = some (Obj.oklass kname (getOrInsertInit methods).2))
    ∧ (∀ (methods : List (String × Option Nat)) (c : Option Nat),
        lookupStr methods "init" = some c → (getOrInsertInit methods).2 = methods)
    ∧ (∀ methods : List (String × Option Nat),
        lookupStr methods "init" = none →
        (getOrInsertInit methods).2 = methods ++ [("init", none)])
    ∧ (∀ (methods : List (String × Option Nat)) (k : String), k ≠ "init" →
        lookupStr (getOrInsertInit methods).2 k = lookupStr methods k) := by
  refine ⟨?_, ?_, ?_, ?_⟩
  · intro s id kname methods argc s2 hk hcall
    unfold callValue at hcall
    simp only [hk] at hcall
    unfold getOrInsertInit at hcall ⊢
    cases hl : lookupStr methods "init" with
    | some c =>
        simp only [hl] at hcall ⊢
        cases c with
        | some mid =>
            have hh := callClosure_heap _ _ _ _ hcall
            rw [hh]
            exact heapGet_heapSet_self _ _ _ _ (heapGet_allocate _ _ _ _ hk)
        | none =>
            by_cases ha : argc ≠ 0
            · rw [if_pos ha] at hcall
              exact StepRes.noConfusion hcall
            · rw [if_neg ha] at hcall
              injection hcall with h1
              rw [← h1]
              exact heapGet_heapSet_self _ _ _ _ (heapGet_allocate _ _ _ _ hk)
    | none =>
        simp only [hl] at hcall ⊢
        by_cases ha : argc ≠ 0
        · rw [if_pos ha] at hcall
          exact StepRes.noConfusion hcall
        · rw [if_neg ha] at hcall
          injection hcall with h1
          rw [← h1]
          exact heapGet_heapSet_self _ _ _ _ (heapGet_allocate _ _ _ _ hk)
  · intro methods c hc
    unfold getOrInsertInit
    rw [hc]
  · intro methods hc
    unfold getOrInsertInit
    rw [hc]
  · intro methods k hk
    unfold getOrInsertInit
    cases hc : lookupStr methods "init" with
    | some c => rfl
    | none => exact lookupStr_append_other _ _ _ (by simpa using (Ne.symm hk))

/-!
Concrete instantiation: the script `class C { m() {} } C();` at the
CALL instruction.  Heap: 0/1 script function and closure, 2 = class C
with the single method m (closure 4), 3/4 = m's function and closure.
-/

def c10Heap : Heap :=
  { objs := [ (0, Obj.ofunction "" 0 0 [Instr.icall 0] []),
              (1, Obj.oclosure 0 []),
              (2, Obj.oklass "C" [("m", some 4)]),
              (3, Obj.ofunction "m" 0 0 [Instr.inil, Instr.iret] []),
              (4, Obj.oclosure 3 []) ],
    interned := [], nextId := 5 }

def c10State : VMState :=
  { heap := c10Heap,
    stack := { data := [Value.vobj 1, Value.vobj 2], top := 2 },
    globals := [],
    frames := [ { closure := 1, code := [Instr.icall 0], pc := 0, offset := 0 } ],
    openUpvalues := [] }

/-- C10 counterexample: instantiating the init-less class C mutates its
method table, inserting the placeholder entry ("init", null): the claim
as stated is false at this input. -/
theorem C10_counterexample_init_inserted :
    heapGet c10State.heap 2 = some (Obj.oklass "C" [("m", some 4)])
    ∧ (resState (execStep c10State)).map (fun s => heapGet s.heap 2)
        = some (some (Obj.oklass "C" [("m", some 4), ("init", none)]))
    ∧ some (Obj.oklass "C" [("m", some 4), ("init", none)])
        ≠ some (Obj.oklass "C" [("m", some 4)]) := by
  exact ⟨rfl, rfl, by decide⟩

def c10After : VMState := (resState (callValue c10State (Value.vobj 2) 0)).getD c10State

/-- Witness for `C10_class_call_method_table` at the concrete state. -/
theorem C10_class_call_method_table_witness :
    heapGet c10After.heap 2 = some (Obj.oklass "C" (getOrInsertInit [("m", some 4)]).2) := by
  exact (C10_class_call_method_table).1 c10State 2 "C" [("m", some 4)] 0 c10After rfl rfl

/-!
## C4 — ADD dispatch and string interning

A frame whose next instruction is ADD, with operands `a`, `b` on the
stack — the configuration in which vm.cpp:321 executes (the ADD handler
touches neither the constants nor the closure, so the frame's closure
id is immaterial).
-/

def addFrame : Frame := { closure := 0, code := [Instr.iadd], pc := 0, offset := 0 }

def addState (h : Heap) (a b : Value) : VMState :=
  { heap := h, stack := { data := [a, b], top := 2 }, globals := [],
    frames := [addFrame], openUpvalues := [] }

theorem lookupStr_append_self {α : Type} (m : List (String × α)) (t : String) (v : α)
    (hm : lookupStr m t = none) : lookupStr (m ++ [(t, v)]) t = some v := by
  induction m with
  | nil => simp [lookupStr]
  | cons a tl ih =>
      cases a with
      | mk ka va =>
          by_cases hka : ka = t
          · simp [lookupStr, hka] at hm
          · simp only [lookupStr, hka, if_false, List.cons_append] at hm ⊢
            exact ih hm

/-- C4: ADD on two numbers pushes their sum; ADD on two strings pushes
the interned StringObject of the concatenation — i.e. exactly the
handle the interning map assigns the concatenated text (in particular,
when the text is already interned to some object `idc`, allocate_string
returns `idc` with the heap untouched, and after ADD the text is
interned to the pushed handle, so every later string with the same text
is the identical handle, making EQUAL's handle comparison true); and
every other operand combination is the Operands-to-+ runtime error. -/
theorem C4_add_dispatch_and_interning :
    (∀ (h : Heap) (x y : Int),
        resTop (execStep (addState h (Value.vnum x) (Value.vnum y)))
          = some (Value.vnum (x + y))
        ∧ resDepth (execStep (addState h (Value.vnum x) (Value.vnum y))) = some 1)
    ∧ (∀ (h : Heap) (sa sb : String) (ia ib : Nat),
        heapGet h ia = some (Obj.ostring sa) →
        heapGet h ib = some (Obj.ostring sb) →
        resTop (execStep (addState h (Value.vobj ia) (Value.vobj ib)))
          = some (Value.vobj (allocateString h (sa ++ sb)).1)
        ∧ (resState (execStep (addState h (Value.vobj ia) (Value.vobj ib)))).map VMState.heap
          = some (allocateString h (sa ++ sb)).2)
    ∧ (∀ (h : Heap) (t : String) (idc : Nat),
        lookupStr h.interned t = some idc →
        allocateString h t = (idc, h))
    ∧ (∀ (h : Heap) (t : String),
        lookupStr ((allocateString h t).2).interned t = some (allocateString h t).1)
    ∧ (∀ i : Nat, valueEq (Value.vobj i) (Value.vobj i) = true)
    ∧ (∀ (h : Heap) (a b : Value),
        (a.isNum && b.isNum) = false →
        ((asStringObj h a).isSome && (asStringObj h b).isSome) = false →
        execStep (addState h a b) = StepRes.rte RtErr.addOperands) := by
  refine ⟨?_, ?_, ?_, ?_, ?_, ?_⟩
  · intro h x y
    exact ⟨rfl, rfl⟩
  · intro h sa sb ia ib hA hB
    have hA' : asStringObj h (Value.vobj ia) = some sa := by
      simp [asStringObj, hA]
    have hB' : asStringObj h (Value.vobj ib) = some sb := by
      simp [asStringObj, hB]
    rcases hAl : allocateString h (sa ++ sb) with ⟨sid, h2⟩
    constructor
    · simp [execStep, addState, addFrame, hA', hB', hAl, resTop, resState, VStack.peek,
        VStack.get, VStack.push, VStack.popBy, Value.isObj, List.getD]
    · simp [execStep, addState, addFrame, hA', hB', hAl, resTop, resState, VStack.peek,
        VStack.get, VStack.push, VStack.popBy, Value.isObj, List.getD]
  · intro h t idc hc
    unfold allocateString
    rw [hc]
  · intro h t
    unfold allocateString
    cases hc : lookupStr h.interned t with
    | some idc => simpa using hc
    | none =>
        simp only [allocate]
        exact lookupStr_append_self _ _ _ hc
  · intro i
    simp [valueEq]
  · intro h a b hnum hstr
    cases a <;> cases b <;>
      simp_all [execStep, addState, addFrame, Value.isNum, Value.isObj, VStack.peek, VStack.get]

/-- Witness for `C4_add_dispatch_and_interning`: a concrete heap with
the interned strings "a" and "b"; each hypothesis is discharged at the
concrete input. -/
def c4Heap : Heap :=
  { objs := [(0, Obj.ostring "a"), (1, Obj.ostring "b")],
    interned := [("a", 0), ("b", 1)], nextId := 2 }

theorem C4_add_dispatch_and_interning_witness :
    (resTop (execStep (addState c4Heap (Value.vnum 2) (Value.vnum 3)))
        = some (Value.vnum 5)
      ∧ resDepth (execStep (addState c4Heap (Value.vnum 2) (Value.vnum 3))) = some 1)
    ∧ resTop (execStep (addState c4Heap (Value.vobj 0) (Value.vobj 1)))
        = some (Value.vobj (allocateString c4Heap "ab").1)
    ∧ allocateString (allocateString c4Heap "ab").2 "ab"
        = ((allocateString c4Heap "ab").1, (allocateString c4Heap "ab").2)
    ∧ execStep (addState c4Heap Value.vnil (Value.vnum 1)) = StepRes.rte RtErr.addOperands := by
  have h := C4_add_dispatch_and_interning
  refine ⟨h.1 c4Heap 2 3, (h.2.1 c4Heap "a" "b" 0 1 rfl rfl).1, ?_, ?_⟩
  · exact h.2.2.1 (allocateString c4Heap "ab").2 "ab" (allocateString c4Heap "ab").1
      (h.2.2.2.1 c4Heap "ab")
  · exact h.2.2.2.2.2 c4Heap Value.vnil (Value.vnum 1) (by decide) (by decide)

/-!
## Garbage collector (object.cpp / object.h)
-/

/-- The marking state during a collection: the ids whose `_is_marked`
bit is set, and the grey worklist (`_grey_list`). -/
structure MarkSt where
  marks : List Nat
  grey : List Nat
deriving DecidableEq, Repr

/-- Object::mark (object.cpp:117): a no-op when already marked; else
set the bit and push onto the grey list. -/
def markObj (id : Nat) (m : MarkSt) : MarkSt :=
  if id ∈ m.marks then m else { marks := id :: m.marks, grey := id :: m.grey }

/-- Modelled from the spec: `Value::mark` is declared in value.h but
its body is not among the source files; per the spec's trace step
("blacken it by marking each object it directly references") a value
marks the object it holds, and non-object values reference nothing. -/
def markValue (v : Value) (m : MarkSt) : MarkSt :=
  match v with
  | Value.vobj id => markObj id m
  | _ => m

/-- ClassObject::blacken (object.h:222) calls `method->blacken(...)` on
each method pointer — running ClosureObject::blacken's body (mark the
function, mark each upvalue) — WITHOUT marking the method closure
itself.  (A null or non-closure method pointer would be a wild virtual
call; the theorems evaluate this only on well-formed tables.) -/
def blackenMethodAsClosure (h : Heap) (mid? : Option Nat) (m : MarkSt) : MarkSt :=
  match mid? with
  | some mid =>
    match heapGet h mid with
    | some (Obj.oclosure fid ups) => ups.foldl (fun acc u => markObj u acc) (markObj fid m)
    | _ => m
  | none => m

/-- The Object::blacken overrides (object.h): Function marks its chunk
constants; Upvalue marks its closed value; Closure marks its function
then its upvalues; Class runs blacken (not mark!) on each method;
Instance marks its class then its field values; BoundMethod marks its
receiver then its method; String and NativeFunction mark nothing. -/
def blackenObj (h : Heap) (o : Obj) (m : MarkSt) : MarkSt :=
  match o with
  | Obj.ostring _ => m
  | Obj.onative _ => m
  | Obj.ofunction _ _ _ _ consts => consts.foldl (fun acc v => markValue v acc) m
  | Obj.oupvalue _ closed => markValue closed m
  | Obj.oclosure fid ups => ups.foldl (fun acc u => markObj u acc) (markObj fid m)
  | Obj.oklass _ methods => methods.foldl (fun acc p => blackenMethodAsClosure h p.2 acc) m
  | Obj.oinst kid fields => fields.foldl (fun acc p => markValue p.2 acc) (markObj kid m)
  | Obj.obound recv mid => markObj mid (markValue recv m)

/-- ObjectAllocator::_mark_roots (object.cpp:44): the last allocated
object, the live operand-stack slots (indices 0 .. top-1), every call
frame's closure, every open upvalue, every globals value.  (The C++
iterates the frame array bottom-up; marking is idempotent and the
resulting marked set is iteration-order independent.) -/
def markRoots (s : VMState) : MarkSt :=
  let m0 : MarkSt := { marks := [], grey := [] }
  let m1 := match s.heap.objs.getLast? with
    | some p => markObj p.1 m0
    | none => m0
  let m2 := (List.range s.stack.top).foldl (fun acc i => markValue (s.stack.get i) acc) m1
  let m3 := s.frames.foldl (fun acc f => markObj f.closure acc) m2
  let m4 := s.openUpvalues.foldl (fun acc u => markObj u acc) m3
  s.globals.foldl (fun acc p => markValue p.2 acc) m4

/-- ObjectAllocator::_trace_references (object.cpp:71): pop the grey
stack and blacken until empty, here bounded by fuel (each object greys
at most once, and the theorems certify the grey list is empty at the
chosen fuel). -/
def traceRefs (h : Heap) : Nat → MarkSt → MarkSt
  | 0, m => m
  | fuel + 1, m =>
    match m.grey with
    | [] => m
    | id :: rest =>
        let m1 : MarkSt := { m with grey := rest }
        match heapGet h id with
        | some o => traceRefs h fuel (blackenObj h o m1)
        | none => traceRefs h fuel m1

/-- ObjectAllocator::_remove_white_strings (object.cpp:95): erase the
interning entries whose string is unmarked. -/
def removeWhiteStrings (interned : List (String × Nat)) (marks : List Nat) :
    List (String × Nat) :=
  interned.filter (fun p => marks.contains p.2)

/-- ObjectAllocator::_sweep (object.cpp:81): deallocate and erase the
objects whose mark bit is unset; `unmark()` clears the bit on the
survivors (survivor bits live only in `MarkSt`, which the collection
discards). -/
def sweep (objs : List (Nat × Obj)) (marks : List Nat) : List (Nat × Obj) :=
  objs.filter (fun p => marks.contains p.1)

/-- ObjectAllocator::collect_garbage (object.cpp:21): mark roots,
trace, remove white strings, sweep.  (`_bytes_allocated` and
`_next_collection` bookkeeping do not affect which objects survive and
are not modelled.)  Returns the post-collection state and the final
marking state. -/
def collectGarbage (fuel : Nat) (s : VMState) : VMState × MarkSt :=
  let m := traceRefs s.heap fuel (markRoots s)
  let h1 : Heap := { objs := sweep s.heap.objs m.marks,
                     interned := removeWhiteStrings s.heap.interned m.marks,
                     nextId := s.heap.nextId }
  ({ s with heap := h1 }, m)

/-!
## C2 — a collection frees a reachable method closure

Reachable state: the script `class A { m() {} }` has executed its class
declaration and the next allocation triggers a collection.  Heap: 0/1 =
script function and closure (the running frame's closure, a root),
2/3 = method m's function and closure — closure 3 is referenced only by
class A — 4 = class A (a root through the globals map), 5 = the most
recently allocated object (an interned string).
-/

def c2Heap : Heap :=
  { objs := [ (0, Obj.ofunction "" 0 0 [] []),
              (1, Obj.oclosure 0 []),
              (2, Obj.ofunction "m" 0 0 [Instr.inil, Instr.iret] []),
              (3, Obj.oclosure 2 []),
              (4, Obj.oklass "A" [("m", some 3)]),
              (5, Obj.ostring "st") ],
    interned := [("st", 5)], nextId := 6 }

def c2State : VMState :=
  { heap := c2Heap,
    stack := { data := [Value.vobj 1], top := 1 },
    globals := [("A", Value.vobj 4)],
    frames := [ { closure := 1, code := [], pc := 0, offset := 0 } ],
    openUpvalues := [] }

/-- C2: the claim says collect_garbage frees no object reachable from
the roots — every object transitively referenced from a marked object
is marked before the sweep.  In the embedded collection (run to a
drained grey list), class 4 is marked via the globals root and survives
still holding method closure 3, yet closure 3 is never marked — only
its own references were marked (its function 2 is) because
ClassObject::blacken runs `method->blacken` instead of `method->mark` —
and the sweep frees it: the claim is false on the code. -/
theorem C2_gc_frees_reachable_method_closure :
    ((collectGarbage 12 c2State).2).grey = []
    ∧ heapGet c2State.heap 4 = some (Obj.oklass "A" [("m", some 3)])
    ∧ (4 : Nat) ∈ ((collectGarbage 12 c2State).2).marks
    ∧ heapGet ((collectGarbage 12 c2State).1).heap 4 = some (Obj.oklass "A" [("m", some 3)])
    ∧ (2 : Nat) ∈ ((collectGarbage 12 c2State).2).marks
    ∧ (3 : Nat) ∉ ((collectGarbage 12 c2State).2).marks
    ∧ heapGet ((collectGarbage 12 c2State).1).heap 3 = none := by
  exact ⟨rfl, rfl, by decide, rfl, by decide, by decide, rfl⟩

/-!
## C9 — parameter and argument limits (parser.cpp)
-/

/-- The parameter do-while loop of Parser::_parse_function_declaration
(parser.cpp:239-255): each iteration consumes one parameter token,
pushes it, and THEN errors when `params.size() >= 255`.  `n` is the
number of parameters the declaration supplies; the result is the parsed
count, or none when the limit error fires. -/
def paramLoop : Nat → Nat → Option Nat
  | 0, count => some count
  | n + 1, count =>
      let count1 := count + 1
      if 255 ≤ count1 then none else paramLoop n count1

/-- The parameter list of a function declaration: the loop runs only
when the next token is not ')' (parser.cpp:237). -/
def parseParams (n : Nat) : Option Nat :=
  if n = 0 then some 0 else paramLoop n 0

/-- The argument do-while loop of Parser::_parse_call
(parser.cpp:312-324): identical structure — push the argument, then
error when `args.size() >= 255`. -/
def argLoop : Nat → Nat → Option Nat
  | 0, count => some count
  | n + 1, count =>
      let count1 := count + 1
      if 255 ≤ count1 then none else argLoop n count1

/-- The argument list of a call expression. -/
def parseArgs (n : Nat) : Option Nat :=
  if n = 0 then some 0 else argLoop n 0

set_option maxRecDepth 4000 in
/-- C9: the claim says a declaration with exactly 255 parameters and a
call with exactly 255 arguments are accepted, and only the 256th
produces the error.  The parser's check `size() >= 255` runs after each
push, so it already fires on the 255th parameter/argument: 255 is
rejected (254 is the largest accepted count), refuting the claim — and
contradicting the code's own message, which says "cannot take more than
255". -/
theorem C9_limit_fires_at_255 :
    parseParams 255 = none ∧ parseParams 254 = some 254
    ∧ parseArgs 255 = none ∧ parseArgs 254 = some 254 := by
  exact ⟨by decide, by decide, by decide, by decide⟩

/-!
## C5 — exit codes (main.cpp)
-/

/-- InterpretResult (vm.h). -/
inductive InterpretResult where
  | ok : InterpretResult
  | runtimeError : InterpretResult
deriving DecidableEq, Repr

/-- run_file (main.cpp:43): a failed parse exits 65; a failed compile
exits 70 (main.cpp:71); a RUNTIME_ERROR interpretation exits 70;
otherwise the run ends normally (exit 0).  `parsed` / `compiled` tell
whether parser.parse() / compiler.compile() produced a value. -/
def runFileExit (parsed : Bool) (compiled : Bool) (result : InterpretResult) : Nat :=
  if !parsed then 65
  else if !compiled then 70
  else if result = InterpretResult.runtimeError then 70
  else 0

/-- main (main.cpp:82): zero CLI arguments runs the (stubbed) REPL and
returns 0; exactly one runs the file; more prints the usage line to
stderr and exits 64.  `argc` counts the program name, as in C. -/
def mainExit (argc : Nat) (fileExit : Nat) : Nat :=
  if argc = 1 then 0
  else if argc = 2 then fileExit
  else 64

/-- C5 counterexample: the program `return;` parses (the parser builds
a ReturnStmtNode without context checks) but fails compilation with
ReturnOutsideFunction, and the process exits 70, not 65: the claim
"exit 65 iff a compile or parse error occurred" is false at this
input. -/
theorem C5_counterexample_compile_error_exits_70 :
    compileReturnStmt FunctionType.script none = Except.error CompileErr.returnOutsideFunction
    ∧ mainExit 2 (runFileExit true false InterpretResult.ok) = 70
    ∧ (70 : Nat) ≠ 65 := by
  exact ⟨rfl, rfl, by decide⟩

/-- C5 (amended): in file mode the exit code is 65 iff the parse
failed; 70 iff the parse succeeded and either the compiler-stage
compile failed or a runtime error occurred; 0 iff all three stages
succeeded; and with more than one command-line argument the process
exits 64 after the usage line. -/
theorem C5_exit_codes :
    (∀ (p c : Bool) (r : InterpretResult),
        (runFileExit p c r = 65 ↔ p = false)
        ∧ (runFileExit p c r = 70
            ↔ (p = true ∧ (c = false ∨ (c = true ∧ r = InterpretResult.runtimeError))))
        ∧ (runFileExit p c r = 0 ↔ (p = true ∧ c = true ∧ r = InterpretResult.ok)))
    ∧ (∀ (argc fe : Nat), 3 ≤ argc → mainExit argc fe = 64)
    ∧ (∀ fe : Nat, mainExit 2 fe = fe)
    ∧ mainExit 1 0 = 0 := by
  refine ⟨?_, ?_, fun fe => rfl, rfl⟩
  · intro p c r
    cases p <;> cases c <;> cases r <;> exact ⟨by decide, by decide, by decide⟩
  · intro argc fe hge
    unfold mainExit
    rw [if_neg (by omega), if_neg (by omega)]

/-- Witness for `C5_exit_codes` at concrete inputs. -/
theorem C5_exit_codes_witness :
    runFileExit false true InterpretResult.ok = 65 ∧ mainExit 3 0 = 64 := by
  have h := C5_exit_codes
  exact ⟨(h.1 false true InterpretResult.ok).1.mpr rfl, h.2.1 3 0 (by decide)⟩
